import Mathlib

/-!
# gsheets: addressing and value marshalling over the Sheets transport

A shallow embedding of `gsheets.go`.

* Go slices are lists (a nil slice and an empty slice are both `[]`).
* Go pointers that may be nil are `Option`s.
* The transport client (`*sheets.Service`) is an oracle that answers each
  call, possibly depending on the calls made before; operations thread the
  log of calls made, so "one call, no retry" is a statement about the log.
* Pointers inside a fetched snapshot (a sheet's `Properties`) are non-nil, as
  the API returns them, so they are plain fields.
* `int` is the 64-bit two's-complement integer of amd64/arm64 targets.
* The address `&cell` of the range variable in `InsertRows` is modelled with
  an explicit store of string variables.  Whether two iterations share that
  variable depends on the language version the module declares, which is not
  part of `gsheets.go`; `InsertRows` therefore takes the semantics as a
  parameter (`LoopVar`).
-/

/-! ## Go runtime pieces -/

/-- Go error value, identified by the text of its `Error()` method. -/
structure GoError where
  msg : String
deriving DecidableEq, Repr

/-- Go `fmt.Errorf("sheet not found: %s", title)`: the verb `%s` prints a string
operand unchanged. -/
def Errorf_sheet_not_found (title : String) : GoError :=
  ⟨"sheet not found: " ++ title⟩

/-- Dynamic cell value (`any`): the dynamic types the JSON decoder produces for a
cell, namely nil, bool, float64 (given by its IEEE-754 bit pattern) and string. -/
inductive AnyValue where
  | nil
  | bool (b : Bool)
  | float64 (bits : Nat)
  | str (s : String)
deriving DecidableEq, Repr

/-- Go `fmt.Sprint` on one operand.  The shortest-representation formatting of a
float64 belongs to the Go runtime and is taken as the parameter `fmtFloat`. -/
def Sprint (fmtFloat : Nat → String) : AnyValue → String
  | .nil => "<nil>"
  | .bool true => "true"
  | .bool false => "false"
  | .float64 bits => fmtFloat bits
  | .str s => s

/-- Go `for i, x := range xs` with loop state `σ`: the body runs once per element,
in order, with the element's index; `i` is the index of the head of `xs`. -/
def forRange {α σ : Type} (body : Nat → α → σ → σ) : Nat → List α → σ → σ
  | _, [], st => st
  | i, x :: xs, st => forRange body (i + 1) xs (body i x st)

/-- Width of Go `int` on 64-bit targets. -/
def intBits : Nat := 64

/-- Least value of `int`. -/
def minInt : Int := -(2 ^ (intBits - 1))

/-- Greatest value of `int`. -/
def maxInt : Int := 2 ^ (intBits - 1) - 1

/-- Two's-complement wraparound of a mathematical integer into `int`: what Go's
`+` on `int` yields for the exact sum. -/
def wrapInt (x : Int) : Int :=
  (x + 2 ^ (intBits - 1)) % 2 ^ intBits - 2 ^ (intBits - 1)

/-- Store of string variables whose address has been taken; an address is an
index into the store. -/
abbrev Heap := List String

/-- Language semantics of the range variable of a `for ... range` statement. -/
inductive LoopVar where
  /-- Go 1.22 and later: every iteration declares a fresh variable. -/
  | perIteration
  /-- Before Go 1.22: one variable per execution of the statement, reassigned on
  every iteration. -/
  | perLoop
deriving DecidableEq, Repr

/-! ## The `sheets/v4` types that `gsheets.go` touches -/

namespace sheets

/-- Properties of a sheet: the fields read by `gsheets.go`. -/
structure SheetProperties where
  SheetId : Int
  Title : String
deriving DecidableEq, Repr

/-- Sheet descriptor of `sheets.Sheet`. -/
structure Sheet where
  Properties : SheetProperties
deriving DecidableEq, Repr

/-- Snapshot `sheets.Spreadsheet`: identifier and ordered sheet collection. -/
structure Spreadsheet where
  SpreadsheetId : String
  Sheets : List Sheet
deriving DecidableEq, Repr

/-- Value payload `sheets.ValueRange`. -/
structure ValueRange where
  Values : List (List AnyValue)
deriving DecidableEq, Repr

/-- Empty body `sheets.ClearValuesRequest{}`. -/
structure ClearValuesRequest where
deriving DecidableEq, Repr

/-- Cell value `sheets.ExtendedValue`: every field is a pointer, nil when unset. -/
structure ExtendedValue where
  StringValue : Option Nat := none
  NumberValue : Option Nat := none
  BoolValue : Option Nat := none
  FormulaValue : Option Nat := none
deriving DecidableEq, Repr

/-- Cell `sheets.CellData`. -/
structure CellData where
  UserEnteredValue : Option ExtendedValue := none
deriving DecidableEq, Repr

/-- Row `sheets.RowData`: a slice of cell pointers. -/
structure RowData where
  Values : List (Option CellData)
deriving DecidableEq, Repr

/-- Half-open index range `sheets.DimensionRange`. -/
structure DimensionRange where
  SheetId : Int
  Dimension : String
  StartIndex : Int
  EndIndex : Int
deriving DecidableEq, Repr

/-- Instruction `sheets.InsertDimensionRequest`. -/
structure InsertDimensionRequest where
  Range : Option DimensionRange
deriving DecidableEq, Repr

/-- Anchor `sheets.GridCoordinate`; an unset index has Go's zero value. -/
structure GridCoordinate where
  SheetId : Int
  RowIndex : Int := 0
  ColumnIndex : Int := 0
deriving DecidableEq, Repr

/-- Instruction `sheets.UpdateCellsRequest`. -/
structure UpdateCellsRequest where
  Fields : String
  Rows : List (Option RowData)
  Start : Option GridCoordinate
deriving DecidableEq, Repr

/-- One entry of a batch, `sheets.Request`: at most one kind is set. -/
structure Request where
  InsertDimension : Option InsertDimensionRequest := none
  UpdateCells : Option UpdateCellsRequest := none
deriving DecidableEq, Repr

/-- Batch body `sheets.BatchUpdateSpreadsheetRequest`. -/
structure BatchUpdateSpreadsheetRequest where
  Requests : List (Option Request)
deriving DecidableEq, Repr

end sheets

/-! ## Transport -/

/-- One request handed to the transport client by `.Do()`. -/
inductive Call where
  /-- Call `Spreadsheets.Values.Get(id, range)`. -/
  | valuesGet (spreadsheetId range : String)
  /-- Call `Spreadsheets.Values.Update(id, range, body).ValueInputOption(o)`. -/
  | valuesUpdate (spreadsheetId range : String) (body : sheets.ValueRange) (valueInputOption : String)
  /-- Call `Spreadsheets.Values.Append(id, range, body).ValueInputOption(o)`. -/
  | valuesAppend (spreadsheetId range : String) (body : sheets.ValueRange) (valueInputOption : String)
  /-- Call `Spreadsheets.Values.Clear(id, range, body)`. -/
  | valuesClear (spreadsheetId range : String) (body : sheets.ClearValuesRequest)
  /-- Call `Spreadsheets.BatchUpdate(id, body)`; `mem` is the content of the string
  variables the body points into at the time of the call. -/
  | batchUpdate (spreadsheetId : String) (body : sheets.BatchUpdateSpreadsheetRequest) (mem : Heap)
deriving DecidableEq, Repr

/-- Transport client `*sheets.Service`: its answer to a call, given the calls made
before.  A successful answer carries the value range (read by `GetAny` only;
every other operation discards the response). -/
structure Service where
  reply : List Call → Call → Except GoError sheets.ValueRange

/-- Method `.Do()`: the call is answered and recorded in the log. -/
def Service.Do (t : Service) (c : Call) (log : List Call) :
    Except GoError sheets.ValueRange × List Call :=
  (t.reply log c, log ++ [c])

/-! ## The package -/

set_option linter.dupNamespace false

namespace gsheets

/-- Handle `Spreadsheet`: the transport client and the fetched snapshot. -/
structure Spreadsheet where
  Service : Service
  Spreadsheet : sheets.Spreadsheet

/-- Handle `Sheet`: the transport client, the snapshot and the selected sheet. -/
structure Sheet where
  Service : Service
  Spreadsheet : sheets.Spreadsheet
  Sheet : sheets.Sheet

/-- The loop of `Spreadsheet.Sheet`: the first descriptor, in collection order,
whose title equals `title`. -/
def Spreadsheet.scan (title : String) : List sheets.Sheet → Option sheets.Sheet
  | [] => none
  | sheet :: rest =>
    if sheet.Properties.Title = title then some sheet else Spreadsheet.scan title rest

/-- Method `(*Spreadsheet).Sheet`: the pair (handle, error) that Go returns. -/
def Spreadsheet.Sheet (s : gsheets.Spreadsheet) (title : String) :
    Option gsheets.Sheet × Option GoError :=
  match Spreadsheet.scan title s.Spreadsheet.Sheets with
  | some sheet =>
    (some { Service := s.Service, Spreadsheet := s.Spreadsheet, Sheet := sheet }, none)
  | none => (none, some (Errorf_sheet_not_found title))

/-- Function `stringValues`: the result is allocated with one (nil) row per input
row, then row `i` is allocated with one cell per input cell and filled by index. -/
def stringValues (fmtFloat : Nat → String) (values : List (List AnyValue)) : List (List String) :=
  forRange
    (fun i row result =>
      forRange
        (fun j cell result => result.set i ((result.getD i []).set j (Sprint fmtFloat cell)))
        0 row (result.set i (List.replicate row.length "")))
    0 values (List.replicate values.length [])

/-- Function `anyValues`: same shape of loop, each cell stored as a string-typed
dynamic value. -/
def anyValues (values : List (List String)) : List (List AnyValue) :=
  forRange
    (fun i row result =>
      forRange
        (fun j cell result => result.set i ((result.getD i []).set j (AnyValue.str cell)))
        0 row (result.set i (List.replicate row.length AnyValue.nil)))
    0 values (List.replicate values.length [])

/-- Method `(*Sheet).GetAny`. -/
def Sheet.GetAny (s : gsheets.Sheet) (ntn : String) (log : List Call) :
    (List (List AnyValue) × Option GoError) × List Call :=
  match s.Service.Do
      (Call.valuesGet s.Spreadsheet.SpreadsheetId (s.Sheet.Properties.Title ++ "!" ++ ntn)) log with
  | (Except.error err, log1) => (([], some err), log1)
  | (Except.ok valueRange, log1) => ((valueRange.Values, none), log1)

/-- Method `(*Sheet).Get`. -/
def Sheet.Get (fmtFloat : Nat → String) (s : gsheets.Sheet) (ntn : String) (log : List Call) :
    (List (List String) × Option GoError) × List Call :=
  match s.GetAny ntn log with
  | ((_, some err), log1) => (([], some err), log1)
  | ((valuesAny, none), log1) => ((stringValues fmtFloat valuesAny, none), log1)

/-- Method `(*Sheet).UpdateAny`. -/
def Sheet.UpdateAny (s : gsheets.Sheet) (ntn : String) (values : List (List AnyValue)) (option : String)
    (log : List Call) : Option GoError × List Call :=
  match s.Service.Do
      (Call.valuesUpdate s.Spreadsheet.SpreadsheetId (s.Sheet.Properties.Title ++ "!" ++ ntn)
        { Values := values } option) log with
  | (Except.error err, log1) => (some err, log1)
  | (Except.ok _, log1) => (none, log1)

/-- Method `(*Sheet).Update`. -/
def Sheet.Update (s : gsheets.Sheet) (ntn : String) (values : List (List String)) (log : List Call) :
    Option GoError × List Call :=
  s.UpdateAny ntn (anyValues values) "USER_ENTERED" log

/-- Method `(*Sheet).AppendAny`. -/
def Sheet.AppendAny (s : gsheets.Sheet) (ntn : String) (values : List (List AnyValue)) (option : String)
    (log : List Call) : Option GoError × List Call :=
  match s.Service.Do
      (Call.valuesAppend s.Spreadsheet.SpreadsheetId (s.Sheet.Properties.Title ++ "!" ++ ntn)
        { Values := values } option) log with
  | (Except.error err, log1) => (some err, log1)
  | (Except.ok _, log1) => (none, log1)

/-- Method `(*Sheet).Append`. -/
def Sheet.Append (s : gsheets.Sheet) (ntn : String) (values : List (List String)) (log : List Call) :
    Option GoError × List Call :=
  s.AppendAny ntn (anyValues values) "USER_ENTERED" log

/-- Method `(*Sheet).Clear`. -/
def Sheet.Clear (s : gsheets.Sheet) (ntn : String) (log : List Call) : Option GoError × List Call :=
  match s.Service.Do
      (Call.valuesClear s.Spreadsheet.SpreadsheetId (s.Sheet.Properties.Title ++ "!" ++ ntn)
        {}) log with
  | (Except.error err, log1) => (some err, log1)
  | (Except.ok _, log1) => (none, log1)

/-- The cell built by `&sheets.CellData{UserEnteredValue:
&sheets.ExtendedValue{StringValue: p}}`. -/
def textCell (p : Nat) : Option sheets.CellData :=
  some { UserEnteredValue := some { StringValue := some p } }

/-- Inner loop of `InsertRows` over one row, on the pair (cellData, store).
With a variable per iteration, each iteration allocates `cell` at a fresh
address; with a variable per loop, `cell` is allocated once, before the first
iteration, and every iteration overwrites it and stores the same address. -/
def cellLoop (lv : LoopVar) (row : List String)
    (st : List (Option sheets.CellData) × Heap) : List (Option sheets.CellData) × Heap :=
  match lv with
  | .perIteration =>
    forRange
      (fun j cell st => (st.1.set j (textCell st.2.length), st.2 ++ [cell]))
      0 row st
  | .perLoop =>
    let p := st.2.length
    forRange
      (fun j cell st => (st.1.set j (textCell p), st.2.set p cell))
      0 row (st.1, st.2 ++ [""])

/-- Outer loop of `InsertRows`: the pair (rowData, store) after every row has been
processed. -/
def rowLoop (lv : LoopVar) (rows : List (List String)) : List (Option sheets.RowData) × Heap :=
  forRange
    (fun i row st =>
      let cells := cellLoop lv row (List.replicate row.length none, st.2)
      (st.1.set i (some { Values := cells.1 }), cells.2))
    0 rows (List.replicate rows.length none, [])

/-- Method `(*Sheet).InsertRows`.  The sum `start + len(rows)` is computed in
`int` and wraps around; the conversions `int64(...)` are the identity. -/
def Sheet.InsertRows (lv : LoopVar) (s : gsheets.Sheet) (start : Int) (rows : List (List String))
    (log : List Call) : Option GoError × List Call :=
  let built := rowLoop lv rows
  let requests : List (Option sheets.Request) := [
    some { InsertDimension := some { Range := some {
      SheetId := s.Sheet.Properties.SheetId,
      Dimension := "ROWS",
      StartIndex := start,
      EndIndex := wrapInt (start + rows.length) } } },
    some { UpdateCells := some {
      Fields := "userEnteredValue",
      Rows := built.1,
      Start := some { SheetId := s.Sheet.Properties.SheetId, RowIndex := start } } } ]
  match s.Service.Do
      (Call.batchUpdate s.Spreadsheet.SpreadsheetId { Requests := requests } built.2) log with
  | (Except.error err, log1) => (some err, log1)
  | (Except.ok _, log1) => (none, log1)

end gsheets

/-! ## Closed forms used in the proofs, and sample objects -/

/-- Cells pointing at consecutive addresses from `base`, one per cell of `row`. -/
def cellsAt (base : Nat) : List String → List (Option sheets.CellData)
  | [] => []
  | _ :: rest => gsheets.textCell base :: cellsAt (base + 1) rest

/-- Rows whose cells point at consecutive addresses from `base`, row after row. -/
def rowsAt (base : Nat) : List (List String) → List (Option sheets.RowData)
  | [] => []
  | row :: rest => some { Values := cellsAt base row } :: rowsAt (base + row.length) rest

/-- The value left in a range variable that started as `x` and was assigned every
cell of `row` in turn. -/
def lastCell (x : String) (row : List String) : String :=
  row.foldl (fun _ c => c) x

/-- Rows whose cells all point at the row's one variable: row `k` at address
`base + k`. -/
def rowsShared (base : Nat) : List (List String) → List (Option sheets.RowData)
  | [] => []
  | row :: rest =>
    some { Values := row.map (fun _ => gsheets.textCell base) } :: rowsShared (base + 1) rest

/-- A transport that accepts every call and answers with an empty value range. -/
def okService : Service := ⟨fun _ _ => Except.ok ⟨[]⟩⟩

/-- A transport that rejects every call with the same error. -/
def quotaService : Service := ⟨fun _ _ => Except.error ⟨"quota exceeded"⟩⟩

/-- Snapshot with the titles A, B, A under distinct sheet identifiers. -/
def abaSnapshot : sheets.Spreadsheet :=
  { SpreadsheetId := "doc-1",
    Sheets := [⟨⟨10, "A"⟩⟩, ⟨⟨11, "B"⟩⟩, ⟨⟨12, "A"⟩⟩] }

/-- Handle of the first sheet of `abaSnapshot` over the accepting transport. -/
def okSheet : gsheets.Sheet :=
  { Service := okService, Spreadsheet := abaSnapshot, Sheet := ⟨⟨10, "A"⟩⟩ }

/-- Handle of the first sheet of `abaSnapshot` over the rejecting transport. -/
def quotaSheet : gsheets.Sheet :=
  { Service := quotaService, Spreadsheet := abaSnapshot, Sheet := ⟨⟨10, "A"⟩⟩ }

/-- Float formatter used where an input holds no float64 cell. -/
def noFloat : Nat → String := fun _ => ""

/-! ## Loop lemmas -/

theorem take_succ_set {β : Type} (acc : List β) (i : Nat) (v : β) (hi : i < acc.length) :
    (acc.set i v).take (i + 1) = acc.take i ++ [v] := by
  rw [List.set_eq_take_append_cons_drop, if_pos hi]
  have : acc.take i ++ v :: acc.drop (i + 1) = (acc.take i ++ [v]) ++ acc.drop (i + 1) := by simp
  rw [this]
  apply List.take_left'
  simp
  omega

/-- A range loop whose body stores `f x` at the element's index fills the slots
`i, i+1, ...` of the accumulator with the images of the elements, in order. -/
theorem forRange_fill {α β : Type} (f : α → β) (body : Nat → α → List β → List β)
    (hbody : ∀ i x acc, i < acc.length → body i x acc = acc.set i (f x)) :
    ∀ (xs : List α) (i : Nat) (acc : List β), i + xs.length ≤ acc.length →
      forRange body i xs acc = acc.take i ++ xs.map f ++ acc.drop (i + xs.length) := by
  intro xs
  induction xs with
  | nil => intro i acc _; simp [forRange]
  | cons x xs ih =>
    intro i acc h
    simp only [List.length_cons] at h
    have hi : i < acc.length := by omega
    rw [forRange, hbody i x acc hi, ih (i + 1) (acc.set i (f x)) (by simp; omega)]
    have h2 : (acc.set i (f x)).drop (i + 1 + xs.length) = acc.drop (i + (xs.length + 1)) := by
      rw [List.drop_set_of_lt]
      · congr 1; omega
      · omega
    rw [take_succ_set acc i (f x) hi, h2]
    simp

/-- Filling a freshly made slice of the right length yields the mapped list. -/
theorem forRange_fill_make {α β : Type} (f : α → β) (body : Nat → α → List β → List β)
    (hbody : ∀ i x acc, i < acc.length → body i x acc = acc.set i (f x)) (z : β) (xs : List α) :
    forRange body 0 xs (List.replicate xs.length z) = xs.map f := by
  rw [forRange_fill f body hbody xs 0 _ (by simp)]
  simp

/-- The inner loop `result[i][j] = g cell` rewrites row `i` only. -/
theorem forRange_inner {α β : Type} (g : α → β) (i : Nat) :
    ∀ (row : List α) (j : Nat) (result : List (List β)), i < result.length →
      forRange (fun j cell result => result.set i ((result.getD i []).set j (g cell))) j row result
        = result.set i (forRange (fun j cell r => r.set j (g cell)) j row (result.getD i [])) := by
  intro row
  induction row with
  | nil =>
    intro j result hi
    simp only [forRange]
    apply List.ext_getElem?
    intro k
    by_cases hk : i = k
    · subst hk
      simp [List.getElem?_set_self hi, List.getElem?_eq_getElem hi]
    · simp [List.getElem?_set_ne hk]
  | cons c row ih =>
    intro j result hi
    rw [forRange, forRange, ih (j + 1) _ (by simpa using hi)]
    simp [List.getElem?_set_self hi, List.set_set]

/-- The nested make-and-fill loop of `stringValues` and `anyValues` computes the
cellwise map. -/
theorem forRange_nested {α β : Type} (g : α → β) (z : β) (values : List (List α)) :
    forRange
      (fun i row result =>
        forRange
          (fun j cell result => result.set i ((result.getD i []).set j (g cell)))
          0 row (result.set i (List.replicate row.length z)))
      0 values (List.replicate values.length [])
      = values.map (List.map g) := by
  apply forRange_fill_make (List.map g)
  intro i row acc hi
  rw [forRange_inner g i row 0 _ (by simpa using hi)]
  have : (acc.set i (List.replicate row.length z)).getD i [] = List.replicate row.length z := by
    simp [List.getElem?_set_self hi]
  rw [this, forRange_fill_make g _ (fun _ _ _ _ => rfl), List.set_set]

theorem stringValues_eq_map (fmtFloat : Nat → String) (values : List (List AnyValue)) :
    gsheets.stringValues fmtFloat values = values.map (List.map (Sprint fmtFloat)) :=
  forRange_nested (Sprint fmtFloat) "" values

theorem anyValues_eq_map (values : List (List String)) :
    gsheets.anyValues values = values.map (List.map AnyValue.str) :=
  forRange_nested AnyValue.str AnyValue.nil values

theorem cellsAt_length (row : List String) : ∀ base, (cellsAt base row).length = row.length := by
  induction row with
  | nil => intro base; rfl
  | cons c row ih => intro base; simp [cellsAt, ih]

theorem rowsAt_length (rows : List (List String)) : ∀ base, (rowsAt base rows).length = rows.length := by
  induction rows with
  | nil => intro base; rfl
  | cons r rows ih => intro base; simp [rowsAt, ih]

/-- Inner loop of `InsertRows` with a variable per iteration: cell `j` points at a
fresh address and the store grows by the row's cells. -/
theorem cellLoop_perIteration :
    ∀ (row : List String) (j : Nat) (cd : List (Option sheets.CellData)) (h : Heap),
      j + row.length ≤ cd.length →
      forRange (fun j cell (st : List (Option sheets.CellData) × Heap) =>
          (st.1.set j (gsheets.textCell st.2.length), st.2 ++ [cell])) j row (cd, h)
        = (cd.take j ++ cellsAt h.length row ++ cd.drop (j + row.length), h ++ row) := by
  intro row
  induction row with
  | nil => intro j cd h _; simp [forRange, cellsAt]
  | cons c row ih =>
    intro j cd h hlen
    simp only [List.length_cons] at hlen
    have hj : j < cd.length := by omega
    rw [forRange, ih (j + 1) _ _ (by simp; omega)]
    have h2 : (cd.set j (gsheets.textCell h.length)).drop (j + 1 + row.length)
        = cd.drop (j + (row.length + 1)) := by
      rw [List.drop_set_of_lt]
      · congr 1; omega
      · omega
    simp only [take_succ_set cd j _ hj, h2, cellsAt, List.length_append, List.length_singleton,
      List.length_cons]
    simp

theorem cellLoop_make (row : List String) (h : Heap) :
    gsheets.cellLoop .perIteration row (List.replicate row.length none, h)
      = (cellsAt h.length row, h ++ row) := by
  unfold gsheets.cellLoop
  simp only
  rw [cellLoop_perIteration row 0 _ h (by simp)]
  simp

/-- Outer loop of `InsertRows` with a variable per iteration, on the closed form
of the inner loop. -/
theorem rowLoop_perIteration_aux :
    ∀ (rows : List (List String)) (i : Nat) (rd : List (Option sheets.RowData)) (h : Heap),
      i + rows.length ≤ rd.length →
      forRange (fun i row (st : List (Option sheets.RowData) × Heap) =>
          (st.1.set i (some { Values := cellsAt st.2.length row }), st.2 ++ row)) i rows (rd, h)
        = (rd.take i ++ rowsAt h.length rows ++ rd.drop (i + rows.length), h ++ rows.flatten) := by
  intro rows
  induction rows with
  | nil => intro i rd h _; simp [forRange, rowsAt]
  | cons r rows ih =>
    intro i rd h hlen
    simp only [List.length_cons] at hlen
    have hi : i < rd.length := by omega
    rw [forRange, ih (i + 1) _ _ (by simp; omega)]
    have h2 : (rd.set i (some { Values := cellsAt h.length r })).drop (i + 1 + rows.length)
        = rd.drop (i + (rows.length + 1)) := by
      rw [List.drop_set_of_lt]
      · congr 1; omega
      · omega
    simp only [take_succ_set rd i _ hi, h2, rowsAt, List.length_append, List.length_cons]
    simp

/-- With a variable per iteration, `InsertRows` builds one row per input row, the
cells of which point at consecutive fresh addresses of a store that holds the
cells of all rows in order. -/
theorem rowLoop_perIteration (rows : List (List String)) :
    gsheets.rowLoop .perIteration rows = (rowsAt 0 rows, rows.flatten) := by
  unfold gsheets.rowLoop
  simp only [cellLoop_make]
  rw [rowLoop_perIteration_aux rows 0 _ [] (by simp)]
  simp

theorem cellsAt_getElem? (row : List String) :
    ∀ (base j : Nat) (cell : String), row[j]? = some cell →
      (cellsAt base row)[j]? = some (gsheets.textCell (base + j)) := by
  induction row with
  | nil => intro base j cell h; simp at h
  | cons c row ih =>
    intro base j cell h
    cases j with
    | zero => simp [cellsAt]
    | succ j =>
      simp only [List.getElem?_cons_succ] at h
      simp only [cellsAt, List.getElem?_cons_succ]
      rw [ih (base + 1) j cell h]
      congr 2
      omega

/-- Reading the store through the pointers of `rowsAt` gives back the input cells. -/
theorem rowsAt_spec (rows : List (List String)) :
    ∀ (pre : Heap) (i : Nat) (row : List String), rows[i]? = some row →
      ∃ cells, (rowsAt pre.length rows)[i]? = some (some { Values := cells })
        ∧ cells.length = row.length
        ∧ ∀ (j : Nat) (cell : String), row[j]? = some cell →
            ∃ p, cells[j]? = some (gsheets.textCell p)
              ∧ (pre ++ rows.flatten)[p]? = some cell := by
  induction rows with
  | nil => intro pre i row h; simp at h
  | cons r rows ih =>
    intro pre i row h
    cases i with
    | zero =>
      simp only [List.getElem?_cons_zero, Option.some.injEq] at h
      subst h
      refine ⟨cellsAt pre.length r, by simp [rowsAt], cellsAt_length r _, ?_⟩
      intro j cell hj
      refine ⟨pre.length + j, cellsAt_getElem? r _ j cell hj, ?_⟩
      rw [List.getElem?_append_right (by omega)]
      simp only [Nat.add_sub_cancel_left, List.flatten_cons]
      have hlt : j < r.length := by
        by_contra hge
        rw [List.getElem?_eq_none (by omega)] at hj
        exact absurd hj (by simp)
      rw [List.getElem?_append_left hlt]
      exact hj
    | succ i =>
      simp only [List.getElem?_cons_succ] at h
      obtain ⟨cells, h1, h2, h3⟩ := ih (pre ++ r) i row h
      refine ⟨cells, ?_, h2, ?_⟩
      · simpa [rowsAt] using h1
      · intro j cell hj
        obtain ⟨p, hp1, hp2⟩ := h3 j cell hj
        exact ⟨p, hp1, by simpa using hp2⟩

theorem wrapInt_of_inRange (x : Int) (hlo : minInt ≤ x) (hhi : x ≤ maxInt) : wrapInt x = x := by
  unfold wrapInt
  unfold minInt at hlo
  unfold maxInt at hhi
  simp only [intBits] at *
  norm_num at *
  rw [Int.emod_eq_of_lt (by omega) (by omega)]
  omega

/-! ## C1: the batch submitted by InsertRows -/

/-- C1 (amended).  Under either loop-variable semantics, for every sheet handle,
start and rows, `InsertRows` appends exactly one call to the log: a batch update
addressed to the spreadsheet's ID with exactly two instructions, first an
insert-dimension on the sheet's ID with dimension "ROWS" and StartIndex = start,
then an update-cells with fields "userEnteredValue" anchored at the same sheet ID,
row start, column 0.  EndIndex is the `int` sum start + len(rows), which wraps
around; it is the exact sum start + len(rows) whenever start is an `int` and the
exact sum does not exceed the largest `int`. -/
theorem InsertRows_submits_one_batch (lv : LoopVar) (s : gsheets.Sheet) (start : Int)
    (rows : List (List String)) (log : List Call) :
    ∃ (endIndex : Int) (rowData : List (Option sheets.RowData)) (mem : Heap),
      (s.InsertRows lv start rows log).2 = log ++ [Call.batchUpdate s.Spreadsheet.SpreadsheetId
        { Requests := [
            some { InsertDimension := some { Range := some {
                     SheetId := s.Sheet.Properties.SheetId, Dimension := "ROWS",
                     StartIndex := start, EndIndex := endIndex } },
                   UpdateCells := none },
            some { InsertDimension := none,
                   UpdateCells := some {
                     Fields := "userEnteredValue", Rows := rowData,
                     Start := some { SheetId := s.Sheet.Properties.SheetId,
                                     RowIndex := start, ColumnIndex := 0 } } }] }
        mem]
      ∧ endIndex = wrapInt (start + rows.length)
      ∧ (minInt ≤ start → start + rows.length ≤ maxInt → endIndex = start + rows.length) := by
  refine ⟨wrapInt (start + rows.length), (gsheets.rowLoop lv rows).1, (gsheets.rowLoop lv rows).2,
    ?_, rfl, ?_⟩
  · unfold gsheets.Sheet.InsertRows Service.Do
    simp only
    split <;> simp_all
  · intro hlo hhi
    exact wrapInt_of_inRange _ (by omega) hhi

/-- C1 (amended), instance: `InsertRows(2, [["x","y"]])` spans [2,3) and anchors the
cells at row 2, column 0. -/
theorem InsertRows_submits_one_batch_witness :
    ∃ (rowData : List (Option sheets.RowData)) (mem : Heap),
      (okSheet.InsertRows .perIteration 2 [["x", "y"]] []).2 = [Call.batchUpdate "doc-1"
        { Requests := [
            some { InsertDimension := some { Range := some {
                     SheetId := 10, Dimension := "ROWS", StartIndex := 2, EndIndex := 3 } },
                   UpdateCells := none },
            some { InsertDimension := none,
                   UpdateCells := some {
                     Fields := "userEnteredValue", Rows := rowData,
                     Start := some { SheetId := 10, RowIndex := 2, ColumnIndex := 0 } } }] }
        mem] := by
  obtain ⟨e, rowData, mem, h1, _, h3⟩ :=
    InsertRows_submits_one_batch .perIteration okSheet 2 [["x", "y"]] []
  have he : e = 3 := h3 (by decide) (by decide)
  subst he
  exact ⟨rowData, mem, h1⟩

/-- C1 as stated fails: at start = 2^63 - 1 with one row, the insert-dimension
instruction carries EndIndex = -2^63, not start + len(rows) = 2^63. -/
theorem InsertRows_endIndex_wraps :
    (okSheet.InsertRows .perIteration 9223372036854775807 [["x"]] []).2
      = [Call.batchUpdate "doc-1"
        { Requests := [
            some { InsertDimension := some { Range := some {
                     SheetId := 10, Dimension := "ROWS",
                     StartIndex := 9223372036854775807,
                     EndIndex := -9223372036854775808 } },
                   UpdateCells := none },
            some { InsertDimension := none,
                   UpdateCells := some {
                     Fields := "userEnteredValue",
                     Rows := [some { Values := [
                       some { UserEnteredValue := some { StringValue := some 0 } }] }],
                     Start := some { SheetId := 10, RowIndex := 9223372036854775807,
                                     ColumnIndex := 0 } } }] }
        ["x"]]
    ∧ (-9223372036854775808 : Int) ≠ 9223372036854775807 + ([["x"]] : List (List String)).length := by
  constructor
  · decide
  · decide

/-! ## C2: the cells written by InsertRows -/

theorem rowsShared_length (rows : List (List String)) :
    ∀ base, (rowsShared base rows).length = rows.length := by
  induction rows with
  | nil => intro base; rfl
  | cons r rows ih => intro base; simp [rowsShared, ih]

theorem foldl_set_last (h : Heap) (row : List String) :
    ∀ x : String, row.foldl (fun hp c => hp.set h.length c) (h ++ [x]) = h ++ [lastCell x row] := by
  induction row with
  | nil => intro x; rfl
  | cons c row ih =>
    intro x
    simp only [List.foldl_cons, lastCell]
    have : (h ++ [x]).set h.length c = h ++ [c] := by simp
    rw [this, ih c]
    rfl

/-- Inner loop of `InsertRows` with one variable per loop, at address `p`: every
cell points at `p` and the variable is overwritten by each cell in turn. -/
theorem cellLoop_perLoop (p : Nat) :
    ∀ (row : List String) (j : Nat) (cd : List (Option sheets.CellData)) (hp : Heap),
      j + row.length ≤ cd.length →
      forRange (fun j cell (st : List (Option sheets.CellData) × Heap) =>
          (st.1.set j (gsheets.textCell p), st.2.set p cell)) j row (cd, hp)
        = (cd.take j ++ row.map (fun _ => gsheets.textCell p) ++ cd.drop (j + row.length),
           row.foldl (fun hp c => hp.set p c) hp) := by
  intro row
  induction row with
  | nil => intro j cd hp _; simp [forRange]
  | cons c row ih =>
    intro j cd hp hlen
    simp only [List.length_cons] at hlen
    have hj : j < cd.length := by omega
    rw [forRange, ih (j + 1) _ _ (by simp; omega)]
    have h2 : (cd.set j (gsheets.textCell p)).drop (j + 1 + row.length)
        = cd.drop (j + (row.length + 1)) := by
      rw [List.drop_set_of_lt]
      · congr 1; omega
      · omega
    simp only [take_succ_set cd j _ hj, h2, List.length_cons, List.map_cons, List.foldl_cons]
    simp

theorem cellLoop_make_perLoop (row : List String) (h : Heap) :
    gsheets.cellLoop .perLoop row (List.replicate row.length none, h)
      = (row.map (fun _ => gsheets.textCell h.length), h ++ [lastCell "" row]) := by
  unfold gsheets.cellLoop
  simp only
  rw [cellLoop_perLoop h.length row 0 _ _ (by simp), foldl_set_last]
  simp

/-- Outer loop of `InsertRows` with one variable per loop, on the closed form of the
inner loop. -/
theorem rowLoop_perLoop_aux :
    ∀ (rows : List (List String)) (i : Nat) (rd : List (Option sheets.RowData)) (h : Heap),
      i + rows.length ≤ rd.length →
      forRange (fun i row (st : List (Option sheets.RowData) × Heap) =>
          (st.1.set i (some { Values := row.map (fun _ => gsheets.textCell st.2.length) }),
           st.2 ++ [lastCell "" row])) i rows (rd, h)
        = (rd.take i ++ rowsShared h.length rows ++ rd.drop (i + rows.length),
           h ++ rows.map (lastCell "")) := by
  intro rows
  induction rows with
  | nil => intro i rd h _; simp [forRange, rowsShared]
  | cons r rows ih =>
    intro i rd h hlen
    simp only [List.length_cons] at hlen
    have hi : i < rd.length := by omega
    rw [forRange, ih (i + 1) _ _ (by simp; omega)]
    have h2 : (rd.set i (some { Values := r.map (fun _ => gsheets.textCell h.length) })).drop
          (i + 1 + rows.length) = rd.drop (i + (rows.length + 1)) := by
      rw [List.drop_set_of_lt]
      · congr 1; omega
      · omega
    simp only [take_succ_set rd i _ hi, h2, rowsShared, List.length_append, List.length_cons,
      List.length_singleton, List.length_nil]
    simp

/-- With one variable per loop, `InsertRows` builds one row per input row, all of
whose cells point at that row's variable; the store holds one variable per row. -/
theorem rowLoop_perLoop (rows : List (List String)) :
    gsheets.rowLoop .perLoop rows = (rowsShared 0 rows, rows.map (lastCell "")) := by
  unfold gsheets.rowLoop
  simp only [cellLoop_make_perLoop]
  rw [rowLoop_perLoop_aux rows 0 _ [] (by simp)]
  simp

theorem rowsShared_getElem? (rows : List (List String)) :
    ∀ (base i : Nat) (row : List String), rows[i]? = some row →
      (rowsShared base rows)[i]?
        = some (some { Values := row.map (fun _ => gsheets.textCell (base + i)) }) := by
  induction rows with
  | nil => intro base i row h; simp at h
  | cons r rows ih =>
    intro base i row h
    cases i with
    | zero =>
      simp only [List.getElem?_cons_zero, Option.some.injEq] at h
      subst h
      simp [rowsShared]
    | succ i =>
      simp only [List.getElem?_cons_succ] at h
      simp only [rowsShared, List.getElem?_cons_succ]
      rw [ih (base + 1) i row h]
      have hidx : base + 1 + i = base + (i + 1) := by omega
      rw [hidx]

/-- C2 (amended).  Under either semantics of the range variable, for every start
and every string matrix, rectangular or jagged, the update-cells instruction
submitted by `InsertRows` carries exactly len(rows) rows; row i carries exactly
len(rows[i]) cells; and cell (i, j) has a user-entered value in which only the
string value is set (number, boolean and formula are nil), pointing at a string
variable of the store at the time of the call.  With a range variable per
iteration (language version 1.22 or later) that variable reads rows[i][j], so
every cell carries its own text.  Nothing is stated about the text read with one
variable per loop. -/
theorem InsertRows_cells_text_typed (lv : LoopVar) (s : gsheets.Sheet) (start : Int)
    (rows : List (List String)) (log : List Call) :
    ∃ (first : Option sheets.Request) (rowData : List (Option sheets.RowData)) (mem : Heap),
      (s.InsertRows lv start rows log).2
        = log ++ [Call.batchUpdate s.Spreadsheet.SpreadsheetId
            { Requests := [first,
                some { InsertDimension := none,
                       UpdateCells := some {
                         Fields := "userEnteredValue", Rows := rowData,
                         Start := some { SheetId := s.Sheet.Properties.SheetId,
                                         RowIndex := start, ColumnIndex := 0 } } }] }
            mem]
      ∧ rowData.length = rows.length
      ∧ ∀ (i : Nat) (row : List String), rows[i]? = some row →
          ∃ cells, rowData[i]? = some (some { Values := cells })
            ∧ cells.length = row.length
            ∧ ∀ (j : Nat) (cell : String), row[j]? = some cell →
                ∃ p, cells[j]? = some (some { UserEnteredValue := some {
                                     StringValue := some p, NumberValue := none,
                                     BoolValue := none, FormulaValue := none } })
                  ∧ (∃ t, mem[p]? = some t)
                  ∧ (lv = LoopVar.perIteration → mem[p]? = some cell) := by
  cases lv with
  | perIteration =>
    refine ⟨some { InsertDimension := some { Range := some {
        SheetId := s.Sheet.Properties.SheetId, Dimension := "ROWS",
        StartIndex := start, EndIndex := wrapInt (start + rows.length) } } },
      rowsAt 0 rows, rows.flatten, ?_, rowsAt_length rows 0, ?_⟩
    · unfold gsheets.Sheet.InsertRows Service.Do
      simp only [rowLoop_perIteration]
      split <;> simp_all
    · intro i row hrow
      obtain ⟨cells, h1, h2, h3⟩ := rowsAt_spec rows [] i row hrow
      refine ⟨cells, by simpa using h1, h2, ?_⟩
      intro j cell hj
      obtain ⟨p, hp1, hp2⟩ := h3 j cell hj
      have hp3 : (rows.flatten)[p]? = some cell := by simpa using hp2
      exact ⟨p, by simpa [gsheets.textCell] using hp1, ⟨cell, hp3⟩, fun _ => hp3⟩
  | perLoop =>
    refine ⟨some { InsertDimension := some { Range := some {
        SheetId := s.Sheet.Properties.SheetId, Dimension := "ROWS",
        StartIndex := start, EndIndex := wrapInt (start + rows.length) } } },
      rowsShared 0 rows, rows.map (lastCell ""), ?_, rowsShared_length rows 0, ?_⟩
    · unfold gsheets.Sheet.InsertRows Service.Do
      simp only [rowLoop_perLoop]
      split <;> simp_all
    · intro i row hrow
      refine ⟨row.map (fun _ => gsheets.textCell (0 + i)), rowsShared_getElem? rows 0 i row hrow,
        by simp, ?_⟩
      intro j cell hj
      refine ⟨i, ?_, ⟨lastCell "" row, by simp [hrow]⟩, fun h => by cases h⟩
      rw [List.getElem?_map, hj]
      simp only [Option.map_some', Nat.zero_add, gsheets.textCell]

/-- C2 (amended), instance: a jagged matrix whose cells look like a number and a
boolean, with a range variable per iteration. -/
theorem InsertRows_cells_text_typed_witness :
    ([["123", "true"], ["z"]] : List (List String))[0]? = some ["123", "true"]
    ∧ ∃ (first : Option sheets.Request) (rowData : List (Option sheets.RowData)) (mem : Heap),
        (okSheet.InsertRows .perIteration 2 [["123", "true"], ["z"]] []).2
          = [Call.batchUpdate "doc-1"
              { Requests := [first,
                  some { InsertDimension := none,
                         UpdateCells := some {
                           Fields := "userEnteredValue", Rows := rowData,
                           Start := some { SheetId := 10, RowIndex := 2, ColumnIndex := 0 } } }] }
              mem]
        ∧ rowData.length = 2
        ∧ ∃ cells p q, rowData[0]? = some (some { Values := cells })
            ∧ cells.length = 2
            ∧ cells[0]? = some (some { UserEnteredValue := some { StringValue := some p } })
            ∧ mem[p]? = some "123"
            ∧ cells[1]? = some (some { UserEnteredValue := some { StringValue := some q } })
            ∧ mem[q]? = some "true" := by
  refine ⟨rfl, ?_⟩
  obtain ⟨first, rowData, mem, h1, h2, h3⟩ :=
    InsertRows_cells_text_typed .perIteration okSheet 2 [["123", "true"], ["z"]] []
  obtain ⟨cells, hc1, hc2, hc3⟩ := h3 0 ["123", "true"] rfl
  obtain ⟨p, hp1, _, hp2⟩ := hc3 0 "123" rfl
  obtain ⟨q, hq1, _, hq2⟩ := hc3 1 "true" rfl
  exact ⟨first, rowData, mem, h1, h2, cells, p, q, hc1, hc2, hp1, hp2 rfl, hq1, hq2 rfl⟩

/-- C2 as stated fails: with one range variable per loop (language version before
1.22) both cells of the row [x, y] point at the same variable, which holds the
row's last value y when the batch is submitted, so cell (0, 0) does not carry its
own text x. -/
theorem InsertRows_shared_variable_reads_last :
    (okSheet.InsertRows .perLoop 0 [["x", "y"]] []).2
      = [Call.batchUpdate "doc-1"
        { Requests := [
            some { InsertDimension := some { Range := some {
                     SheetId := 10, Dimension := "ROWS", StartIndex := 0, EndIndex := 1 } },
                   UpdateCells := none },
            some { InsertDimension := none,
                   UpdateCells := some {
                     Fields := "userEnteredValue",
                     Rows := [some { Values := [
                       some { UserEnteredValue := some { StringValue := some 0 } },
                       some { UserEnteredValue := some { StringValue := some 0 } }] }],
                     Start := some { SheetId := 10, RowIndex := 0, ColumnIndex := 0 } } }] }
        ["y"]]
    ∧ (["y"] : Heap)[0]? = some "y"
    ∧ (["y"] : Heap)[0]? ≠ some "x" := by
  refine ⟨?_, ?_, ?_⟩ <;> decide

/-! ## C3: the range reference of the value operations -/

/-- C3.  For every sheet handle and every in-sheet reference n, each of `GetAny`,
`UpdateAny`, `AppendAny` and `Clear` appends exactly one call to the log, addressed
to the spreadsheet's ID, whose range is the sheet title, then "!", then n, with
nothing escaped, quoted or trimmed; for title "Sheet1" and n = "A1:C10" the range
is "Sheet1!A1:C10". -/
theorem value_ops_range_reference (s : gsheets.Sheet) (ntn : String)
    (values : List (List AnyValue)) (option : String) (log : List Call) :
    (s.GetAny ntn log).2
        = log ++ [Call.valuesGet s.Spreadsheet.SpreadsheetId
                    (s.Sheet.Properties.Title ++ "!" ++ ntn)]
    ∧ (s.UpdateAny ntn values option log).2
        = log ++ [Call.valuesUpdate s.Spreadsheet.SpreadsheetId
                    (s.Sheet.Properties.Title ++ "!" ++ ntn) { Values := values } option]
    ∧ (s.AppendAny ntn values option log).2
        = log ++ [Call.valuesAppend s.Spreadsheet.SpreadsheetId
                    (s.Sheet.Properties.Title ++ "!" ++ ntn) { Values := values } option]
    ∧ (s.Clear ntn log).2
        = log ++ [Call.valuesClear s.Spreadsheet.SpreadsheetId
                    (s.Sheet.Properties.Title ++ "!" ++ ntn) {}]
    ∧ (gsheets.Sheet.GetAny
          { Service := s.Service, Spreadsheet := s.Spreadsheet,
            Sheet := ⟨⟨s.Sheet.Properties.SheetId, "Sheet1"⟩⟩ } "A1:C10" log).2
        = log ++ [Call.valuesGet s.Spreadsheet.SpreadsheetId "Sheet1!A1:C10"] := by
  refine ⟨?_, ?_, ?_, ?_, ?_⟩
  · unfold gsheets.Sheet.GetAny Service.Do
    split <;> simp_all
  · unfold gsheets.Sheet.UpdateAny Service.Do
    split <;> simp_all
  · unfold gsheets.Sheet.AppendAny Service.Do
    split <;> simp_all
  · unfold gsheets.Sheet.Clear Service.Do
    split <;> simp_all
  · unfold gsheets.Sheet.GetAny Service.Do
    split <;> simp_all

/-! ## C4, C5: resolving a sheet by title -/

theorem scan_eq_none (title : String) (l : List sheets.Sheet) :
    gsheets.Spreadsheet.scan title l = none ↔ ∀ sheet ∈ l, sheet.Properties.Title ≠ title := by
  induction l with
  | nil => simp [gsheets.Spreadsheet.scan]
  | cons a l ih =>
    unfold gsheets.Spreadsheet.scan
    by_cases h : a.Properties.Title = title
    · simp [h]
    · simp [h, ih]

theorem scan_eq_some (title : String) (l : List sheets.Sheet) (sheet : sheets.Sheet)
    (h : gsheets.Spreadsheet.scan title l = some sheet) :
    ∃ k : Nat, l[k]? = some sheet ∧ sheet.Properties.Title = title
      ∧ ∀ j : Nat, j < k → ∀ other : sheets.Sheet, l[j]? = some other →
          other.Properties.Title ≠ title := by
  induction l with
  | nil => simp [gsheets.Spreadsheet.scan] at h
  | cons a l ih =>
    unfold gsheets.Spreadsheet.scan at h
    by_cases ha : a.Properties.Title = title
    · simp only [ha, if_true, Option.some.injEq] at h
      subst h
      exact ⟨0, by simp, ha, by intro j hj; omega⟩
    · simp only [ha, if_false] at h
      obtain ⟨k, hk1, hk2, hk3⟩ := ih h
      refine ⟨k + 1, by simpa using hk1, hk2, ?_⟩
      intro j hj other hother
      cases j with
      | zero =>
        simp only [List.getElem?_cons_zero, Option.some.injEq] at hother
        subst hother
        exact ha
      | succ j =>
        simp only [List.getElem?_cons_succ] at hother
        exact hk3 j (by omega) other hother

/-- C4.  For every spreadsheet handle whose collection holds at least one sheet
whose title equals `title` (string equality, so case-sensitive), `Sheet(title)`
returns a nil error and a handle over the same transport and snapshot whose
selected sheet is the entry at the smallest index with that title: every entry
before it has a different title.  On titles A, B, A the search for A returns the
entry at index 0 (sheet ID 10), not the one at index 2 (sheet ID 12). -/
theorem Sheet_returns_first_match (s : gsheets.Spreadsheet) (title : String)
    (hex : ∃ sheet ∈ s.Spreadsheet.Sheets, sheet.Properties.Title = title) :
    (∃ (k : Nat) (sheet : sheets.Sheet),
        s.Sheet title
          = (some { Service := s.Service, Spreadsheet := s.Spreadsheet, Sheet := sheet }, none)
        ∧ s.Spreadsheet.Sheets[k]? = some sheet
        ∧ sheet.Properties.Title = title
        ∧ ∀ j : Nat, j < k → ∀ other : sheets.Sheet, s.Spreadsheet.Sheets[j]? = some other →
            other.Properties.Title ≠ title)
    ∧ ((gsheets.Spreadsheet.Sheet { Service := s.Service, Spreadsheet := abaSnapshot } "A").1.map
          (fun h => h.Sheet.Properties.SheetId) = some 10) := by
  constructor
  · cases hscan : gsheets.Spreadsheet.scan title s.Spreadsheet.Sheets with
    | none =>
      obtain ⟨sheet, hmem, ht⟩ := hex
      exact absurd ht ((scan_eq_none title _).1 hscan sheet hmem)
    | some sheet =>
      obtain ⟨k, hk1, hk2, hk3⟩ := scan_eq_some title _ sheet hscan
      refine ⟨k, sheet, ?_, hk1, hk2, hk3⟩
      unfold gsheets.Spreadsheet.Sheet
      rw [hscan]
  · rfl

/-- C4, instance: the snapshot with titles A, B, A searched for B. -/
theorem Sheet_returns_first_match_witness :
    (∃ sheet ∈ abaSnapshot.Sheets, sheet.Properties.Title = "B")
    ∧ ∃ (k : Nat) (sheet : sheets.Sheet),
        gsheets.Spreadsheet.Sheet { Service := okService, Spreadsheet := abaSnapshot } "B"
          = (some { Service := okService, Spreadsheet := abaSnapshot, Sheet := sheet }, none)
        ∧ abaSnapshot.Sheets[k]? = some sheet
        ∧ sheet.Properties.Title = "B"
        ∧ ∀ j : Nat, j < k → ∀ other : sheets.Sheet, abaSnapshot.Sheets[j]? = some other →
            other.Properties.Title ≠ "B" :=
  ⟨⟨⟨⟨11, "B"⟩⟩, by decide, rfl⟩,
   (Sheet_returns_first_match { Service := okService, Spreadsheet := abaSnapshot } "B"
      ⟨⟨⟨11, "B"⟩⟩, by decide, rfl⟩).1⟩

/-- C5.  For every spreadsheet handle and title, `Sheet(title)` returns an error
exactly when no sheet of the collection has that title (in particular on the
empty collection); it then returns a nil handle and the error whose message is
"sheet not found: " followed by the title unchanged. -/
theorem Sheet_not_found_iff (s : gsheets.Spreadsheet) (title : String) :
    ((s.Sheet title).2 ≠ none ↔ ∀ sheet ∈ s.Spreadsheet.Sheets, sheet.Properties.Title ≠ title)
    ∧ ((s.Sheet title).2 ≠ none →
        s.Sheet title = (none, some ⟨"sheet not found: " ++ title⟩))
    ∧ (gsheets.Spreadsheet.Sheet
          { Service := s.Service, Spreadsheet := { SpreadsheetId := s.Spreadsheet.SpreadsheetId,
                                                   Sheets := [] } } title
        = (none, some ⟨"sheet not found: " ++ title⟩)) := by
  refine ⟨?_, ?_, ?_⟩
  · rw [← scan_eq_none]
    unfold gsheets.Spreadsheet.Sheet
    cases gsheets.Spreadsheet.scan title s.Spreadsheet.Sheets <;> simp
  · unfold gsheets.Spreadsheet.Sheet
    cases gsheets.Spreadsheet.scan title s.Spreadsheet.Sheets <;> simp [Errorf_sheet_not_found]
  · simp [gsheets.Spreadsheet.Sheet, gsheets.Spreadsheet.scan, Errorf_sheet_not_found]

/-- C5, instance: the title C is absent from the titles A, B, A. -/
theorem Sheet_not_found_iff_witness :
    (gsheets.Spreadsheet.Sheet { Service := okService, Spreadsheet := abaSnapshot } "C").2 ≠ none
    ∧ (gsheets.Spreadsheet.Sheet { Service := okService, Spreadsheet := abaSnapshot } "C"
        = (none, some ⟨"sheet not found: C"⟩)) :=
  ⟨by decide,
   (Sheet_not_found_iff { Service := okService, Spreadsheet := abaSnapshot } "C").2.1 (by decide)⟩

/-! ## C6, C9, C10: value coercion -/

/-- C6.  For every string matrix s (empty, with empty rows, jagged, with cells that
are empty or look like numbers, booleans or "<nil>"), `anyValues` wraps every cell
as a string-typed value, in place, and `stringValues(anyValues(s))` is s. -/
theorem stringValues_anyValues_roundtrip (fmtFloat : Nat → String) (s : List (List String)) :
    gsheets.anyValues s = s.map (List.map AnyValue.str)
    ∧ gsheets.stringValues fmtFloat (gsheets.anyValues s) = s
    ∧ gsheets.stringValues fmtFloat (gsheets.anyValues [["", "123"], [], ["true", "<nil>"]])
        = [["", "123"], [], ["true", "<nil>"]] := by
  have key : ∀ t : List (List String),
      gsheets.stringValues fmtFloat (gsheets.anyValues t) = t := by
    intro t
    rw [anyValues_eq_map, stringValues_eq_map, List.map_map]
    have : (List.map (Sprint fmtFloat) ∘ List.map AnyValue.str) = id := by
      funext row
      simp only [Function.comp_apply, List.map_map, id_eq]
      have : (Sprint fmtFloat ∘ AnyValue.str) = id := by
        funext c
        rfl
      rw [this, List.map_id]
    rw [this, List.map_id]
  exact ⟨anyValues_eq_map s, key s, key _⟩

/-- C9 as stated fails: a nil cell is rendered as "<nil>", not as the empty string. -/
theorem stringValues_nil_cell :
    gsheets.stringValues noFloat [[AnyValue.nil]] = [["<nil>"]]
    ∧ gsheets.stringValues noFloat [[AnyValue.nil]] ≠ [[""]] := by
  constructor <;> decide

/-- C9 (amended).  For every dynamically typed matrix m, the cell of
`stringValues(m)` at the position of a nil cell is "<nil>", at the position of a
boolean cell is "true" or "false", and at the position of a string cell is that
same string. -/
theorem stringValues_renders_cells (fmtFloat : Nat → String) (m : List (List AnyValue))
    (i j : Nat) (row : List AnyValue) (c : AnyValue)
    (hrow : m[i]? = some row) (hcell : row[j]? = some c) :
    ∃ out, (gsheets.stringValues fmtFloat m)[i]? = some out
      ∧ (c = AnyValue.nil → out[j]? = some "<nil>")
      ∧ (c = AnyValue.bool true → out[j]? = some "true")
      ∧ (c = AnyValue.bool false → out[j]? = some "false")
      ∧ (∀ t : String, c = AnyValue.str t → out[j]? = some t) := by
  refine ⟨row.map (Sprint fmtFloat), ?_, ?_, ?_, ?_, ?_⟩
  · rw [stringValues_eq_map]
    simp [hrow]
  · intro hc; subst hc; simp [hcell, Sprint]
  · intro hc; subst hc; simp [hcell, Sprint]
  · intro hc; subst hc; simp [hcell, Sprint]
  · intro t hc; subst hc; simp [hcell, Sprint]

/-- C9 (amended), instance: the nil cell of the row [true, nil, "a"]. -/
theorem stringValues_renders_cells_witness :
    ([[AnyValue.bool true, AnyValue.nil, AnyValue.str "a"]] : List (List AnyValue))[0]?
        = some [AnyValue.bool true, AnyValue.nil, AnyValue.str "a"]
    ∧ [AnyValue.bool true, AnyValue.nil, AnyValue.str "a"][1]? = some AnyValue.nil
    ∧ ∃ out, (gsheets.stringValues noFloat
                [[AnyValue.bool true, AnyValue.nil, AnyValue.str "a"]])[0]? = some out
        ∧ out[1]? = some "<nil>" := by
  refine ⟨rfl, rfl, ?_⟩
  obtain ⟨out, h1, h2, _⟩ := stringValues_renders_cells noFloat
    [[AnyValue.bool true, AnyValue.nil, AnyValue.str "a"]] 0 1
    [AnyValue.bool true, AnyValue.nil, AnyValue.str "a"] AnyValue.nil rfl rfl
  exact ⟨out, h1, h2 rfl⟩

/-- C10.  For every dynamically typed matrix m (empty, with empty rows, jagged,
whatever the cell types), `stringValues(m)` has as many rows as m and its row i
has as many cells as row i of m; likewise `anyValues(s)` for every string
matrix s. -/
theorem coercions_preserve_shape (fmtFloat : Nat → String) (m : List (List AnyValue))
    (s : List (List String)) :
    (gsheets.stringValues fmtFloat m).length = m.length
    ∧ (∀ i : Nat, ((gsheets.stringValues fmtFloat m)[i]?).map List.length
          = (m[i]?).map List.length)
    ∧ (gsheets.anyValues s).length = s.length
    ∧ (∀ i : Nat, ((gsheets.anyValues s)[i]?).map List.length = (s[i]?).map List.length) := by
  rw [stringValues_eq_map, anyValues_eq_map]
  refine ⟨by simp, ?_, by simp, ?_⟩
  · intro i
    cases h : m[i]? <;> simp [h]
  · intro i
    cases h : s[i]? <;> simp [h]

/-! ## C7: the typed and the dynamically typed write operations -/

/-- C7.  For every in-sheet reference n and string matrix v, `Update(n, v)` is
`UpdateAny(n, anyValues(v), "USER_ENTERED")` and `Append(n, v)` is
`AppendAny(n, anyValues(v), "USER_ENTERED")`: same call, same result.  For every
dynamically typed matrix w and option o, the call of `UpdateAny(n, w, o)` and of
`AppendAny(n, w, o)` carries w itself as its values and o itself as its value
input option. -/
theorem write_ops_forwarding (s : gsheets.Sheet) (ntn : String) (v : List (List String))
    (w : List (List AnyValue)) (o : String) (log : List Call) :
    s.Update ntn v log = s.UpdateAny ntn (gsheets.anyValues v) "USER_ENTERED" log
    ∧ s.Append ntn v log = s.AppendAny ntn (gsheets.anyValues v) "USER_ENTERED" log
    ∧ (s.Update ntn v log).2
        = log ++ [Call.valuesUpdate s.Spreadsheet.SpreadsheetId
                    (s.Sheet.Properties.Title ++ "!" ++ ntn)
                    { Values := v.map (List.map AnyValue.str) } "USER_ENTERED"]
    ∧ (s.Append ntn v log).2
        = log ++ [Call.valuesAppend s.Spreadsheet.SpreadsheetId
                    (s.Sheet.Properties.Title ++ "!" ++ ntn)
                    { Values := v.map (List.map AnyValue.str) } "USER_ENTERED"]
    ∧ (s.UpdateAny ntn w o log).2
        = log ++ [Call.valuesUpdate s.Spreadsheet.SpreadsheetId
                    (s.Sheet.Properties.Title ++ "!" ++ ntn) { Values := w } o]
    ∧ (s.AppendAny ntn w o log).2
        = log ++ [Call.valuesAppend s.Spreadsheet.SpreadsheetId
                    (s.Sheet.Properties.Title ++ "!" ++ ntn) { Values := w } o] := by
  refine ⟨rfl, rfl, ?_, ?_, ?_, ?_⟩
  · unfold gsheets.Sheet.Update gsheets.Sheet.UpdateAny Service.Do
    rw [anyValues_eq_map]
    split <;> simp_all
  · unfold gsheets.Sheet.Append gsheets.Sheet.AppendAny Service.Do
    rw [anyValues_eq_map]
    split <;> simp_all
  · unfold gsheets.Sheet.UpdateAny Service.Do
    split <;> simp_all
  · unfold gsheets.Sheet.AppendAny Service.Do
    split <;> simp_all

/-! ## C8: transport errors -/

/-- C8.  Every operation of a sheet handle makes exactly one transport call c (the
log grows by c alone, so nothing is retried and nothing is checked before the
call).  If the transport answers c with an error e, the operation returns e
itself (`GetAny` and `Get` with a nil matrix); if the transport answers without
error, the operation returns a nil error. -/
theorem sheet_ops_propagate_transport_error (lv : LoopVar) (fmtFloat : Nat → String)
    (s : gsheets.Sheet) (ntn : String) (v : List (List String)) (w : List (List AnyValue))
    (o : String) (start : Int) (log : List Call) :
    (∃ c, (∀ e, s.Service.reply log c = Except.error e →
              s.GetAny ntn log = (([], some e), log ++ [c]))
        ∧ (∀ r, s.Service.reply log c = Except.ok r →
              s.GetAny ntn log = ((r.Values, none), log ++ [c])))
    ∧ (∃ c, (∀ e, s.Service.reply log c = Except.error e →
              s.Get fmtFloat ntn log = (([], some e), log ++ [c]))
        ∧ (∀ r, s.Service.reply log c = Except.ok r →
              s.Get fmtFloat ntn log
                = ((gsheets.stringValues fmtFloat r.Values, none), log ++ [c])))
    ∧ (∃ c, (∀ e, s.Service.reply log c = Except.error e →
              s.UpdateAny ntn w o log = (some e, log ++ [c]))
        ∧ (∀ r, s.Service.reply log c = Except.ok r →
              s.UpdateAny ntn w o log = (none, log ++ [c])))
    ∧ (∃ c, (∀ e, s.Service.reply log c = Except.error e →
              s.Update ntn v log = (some e, log ++ [c]))
        ∧ (∀ r, s.Service.reply log c = Except.ok r →
              s.Update ntn v log = (none, log ++ [c])))
    ∧ (∃ c, (∀ e, s.Service.reply log c = Except.error e →
              s.AppendAny ntn w o log = (some e, log ++ [c]))
        ∧ (∀ r, s.Service.reply log c = Except.ok r →
              s.AppendAny ntn w o log = (none, log ++ [c])))
    ∧ (∃ c, (∀ e, s.Service.reply log c = Except.error e →
              s.Append ntn v log = (some e, log ++ [c]))
        ∧ (∀ r, s.Service.reply log c = Except.ok r →
              s.Append ntn v log = (none, log ++ [c])))
    ∧ (∃ c, (∀ e, s.Service.reply log c = Except.error e →
              s.Clear ntn log = (some e, log ++ [c]))
        ∧ (∀ r, s.Service.reply log c = Except.ok r →
              s.Clear ntn log = (none, log ++ [c])))
    ∧ (∃ c, (∀ e, s.Service.reply log c = Except.error e →
              s.InsertRows lv start v log = (some e, log ++ [c]))
        ∧ (∀ r, s.Service.reply log c = Except.ok r →
              s.InsertRows lv start v log = (none, log ++ [c]))) := by
  refine ⟨?_, ?_, ?_, ?_, ?_, ?_, ?_, ?_⟩
  · refine ⟨Call.valuesGet s.Spreadsheet.SpreadsheetId (s.Sheet.Properties.Title ++ "!" ++ ntn),
      ?_, ?_⟩ <;>
    · intro x hx
      simp [gsheets.Sheet.GetAny, Service.Do, hx]
  · refine ⟨Call.valuesGet s.Spreadsheet.SpreadsheetId (s.Sheet.Properties.Title ++ "!" ++ ntn),
      ?_, ?_⟩ <;>
    · intro x hx
      simp [gsheets.Sheet.Get, gsheets.Sheet.GetAny, Service.Do, hx]
  · refine ⟨Call.valuesUpdate s.Spreadsheet.SpreadsheetId
      (s.Sheet.Properties.Title ++ "!" ++ ntn) { Values := w } o, ?_, ?_⟩ <;>
    · intro x hx
      simp [gsheets.Sheet.UpdateAny, Service.Do, hx]
  · refine ⟨Call.valuesUpdate s.Spreadsheet.SpreadsheetId
      (s.Sheet.Properties.Title ++ "!" ++ ntn) { Values := gsheets.anyValues v } "USER_ENTERED",
      ?_, ?_⟩ <;>
    · intro x hx
      simp [gsheets.Sheet.Update, gsheets.Sheet.UpdateAny, Service.Do, hx]
  · refine ⟨Call.valuesAppend s.Spreadsheet.SpreadsheetId
      (s.Sheet.Properties.Title ++ "!" ++ ntn) { Values := w } o, ?_, ?_⟩ <;>
    · intro x hx
      simp [gsheets.Sheet.AppendAny, Service.Do, hx]
  · refine ⟨Call.valuesAppend s.Spreadsheet.SpreadsheetId
      (s.Sheet.Properties.Title ++ "!" ++ ntn) { Values := gsheets.anyValues v } "USER_ENTERED",
      ?_, ?_⟩ <;>
    · intro x hx
      simp [gsheets.Sheet.Append, gsheets.Sheet.AppendAny, Service.Do, hx]
  · refine ⟨Call.valuesClear s.Spreadsheet.SpreadsheetId
      (s.Sheet.Properties.Title ++ "!" ++ ntn) {}, ?_, ?_⟩ <;>
    · intro x hx
      simp [gsheets.Sheet.Clear, Service.Do, hx]
  · refine ⟨Call.batchUpdate s.Spreadsheet.SpreadsheetId
      { Requests := [
          some { InsertDimension := some { Range := some {
            SheetId := s.Sheet.Properties.SheetId, Dimension := "ROWS",
            StartIndex := start, EndIndex := wrapInt (start + v.length) } } },
          some { UpdateCells := some {
            Fields := "userEnteredValue", Rows := (gsheets.rowLoop lv v).1,
            Start := some { SheetId := s.Sheet.Properties.SheetId, RowIndex := start } } }] }
      (gsheets.rowLoop lv v).2, ?_, ?_⟩ <;>
    · intro x hx
      simp [gsheets.Sheet.InsertRows, Service.Do, hx]

/-- C8, instances: a rejected `GetAny` returns the transport's error and a nil
matrix after one call; an accepted `InsertRows` returns a nil error after one
call. -/
theorem sheet_ops_propagate_transport_error_witness :
    (∃ c, quotaSheet.GetAny "A1:B2" [] = (([], some ⟨"quota exceeded"⟩), [c]))
    ∧ (∃ c, okSheet.InsertRows .perIteration 0 [["x"]] [] = (none, [c])) := by
  constructor
  · obtain ⟨⟨c, hc, _⟩, _⟩ := sheet_ops_propagate_transport_error .perIteration noFloat
      quotaSheet "A1:B2" [["x"]] [] "RAW" 0 []
    exact ⟨c, hc ⟨"quota exceeded"⟩ rfl⟩
  · obtain ⟨_, _, _, _, _, _, _, c, _, hc⟩ := sheet_ops_propagate_transport_error .perIteration
      noFloat okSheet "A1:B2" [["x"]] [] "RAW" 0 []
    exact ⟨c, hc ⟨[]⟩ rfl⟩
